import Mathlib

/-!
Verification of the OTF-project QGIS server plugin
(src/filters/map_composition.py, class MapComposition).

The development is a shallow embedding of MapComposition.executeRequest.
The helper module filters/tools.py is not part of the sources, so its four
functions (validate_source_uri, is_file_path, layer_from_source,
generate_legend) are abstracted as parameters of an Env structure; the
QGIS library operations actually used by the handler (map-layer registry,
project entries, style manager) are modelled explicitly.  The filesystem
is a list of existing paths; writing the project file is modelled as
always succeeding.  Python strings are Lean Strings; layer ids are Nats
(QGIS layer ids are opaque unique strings).
-/

set_option autoImplicit false

namespace OtfProject

/-! ### String helpers: Python str.split, str.upper, os.path.basename, os.path.splitext -/

/-- Python s.split(sep) for a one-character separator: splitting the empty
string yields a single empty field. -/
def splitChars (sep : Char) : List Char → List (List Char)
  | [] => [[]]
  | c :: rest =>
    let r := splitChars sep rest
    if c = sep then [] :: r
    else
      match r with
      | [] => [[c]]
      | g :: gs => (c :: g) :: gs

/-- Python layer_source.split(textual semicolon). -/
def splitSemi (s : String) : List String :=
  (splitChars ';' s.toList).map (fun cs => String.mk cs)

/-- Python s.upper() restricted to the characters the handler compares. -/
def upperStr (s : String) : String :=
  String.mk (s.toList.map Char.toUpper)

/-- Index of the last occurrence of a character, if any. -/
def lastIdxOf (c : Char) : List Char → Option Nat
  | [] => none
  | x :: rest =>
    match lastIdxOf c rest with
    | some i => some (i + 1)
    | none => if x = c then some 0 else none

/-- os.path.basename for posix paths: everything after the last slash. -/
def basenameChars (cs : List Char) : List Char :=
  match lastIdxOf '/' cs with
  | none => cs
  | some i => cs.drop (i + 1)

/-- os.path.basename. -/
def basename (s : String) : String :=
  String.mk (basenameChars s.toList)

/-- posixpath.splitext on character lists: split at the last dot provided it
lies after the last slash and the leading characters of the base name are
not all dots. -/
def splitextChars (cs : List Char) : List Char × List Char :=
  match lastIdxOf '.' cs with
  | none => (cs, [])
  | some di =>
    let fi : Nat :=
      match lastIdxOf '/' cs with
      | none => 0
      | some si => si + 1
    if fi ≤ di then
      if ((cs.drop fi).take (di - fi)).any (fun c => c != '.') then
        (cs.take di, cs.drop di)
      else (cs, [])
    else (cs, [])

/-- os.path.splitext. -/
def splitext (s : String) : String × String :=
  let p := splitextChars s.toList
  (String.mk p.1, String.mk p.2)

/-- Line 192: qml_file = splitext(layer_source)[0] + textual .qml suffix. -/
def qmlOf (s : String) : String :=
  (splitext s).1 ++ ".qml"

/-- Lines 147-149: default display name of a source, splitext(basename(s))[0]. -/
def defaultName (s : String) : String :=
  (splitext (basename s)).1

/-! ### Data model: layers, projects, requests -/

/-- Runtime class of a constructed QGIS layer (isinstance checks, lines 182-188). -/
inductive LayerKind where
  | vector
  | raster
  | other
deriving DecidableEq, Repr

/-- A QGIS map layer as far as the handler observes it: id(), name(),
source(), isValid(), its isinstance class, and the style names of its
style manager. -/
structure Layer where
  id : Nat
  name : String
  source : String
  kind : LayerKind
  valid : Bool
  styles : List String
deriving DecidableEq, Repr

/-- The QgsProject state the handler reads and writes: the map-layer
registry and the three entry groups it touches.  WFSLayers and WCSLayers
are the entries with key slash; WFSLayersPrecision is keyed by layer id
(the code uses the key slash-id, the constant slash is dropped here). -/
structure Project where
  layers : List Layer
  wfsLayers : Option (List Nat)
  wcsLayers : Option (List Nat)
  wfsPrecision : List (Nat × Nat)
deriving DecidableEq, Repr

/-- A project with no layers and no entries. -/
def emptyProject : Project :=
  { layers := [], wfsLayers := none, wcsLayers := none, wfsPrecision := [] }

/-- The four helpers imported from filters/tools.py, which is not part of
the sources: they are kept abstract.  layer_from_source takes the source
and the name and yields the constructed layer, or none when the format is
invalid (the Python function returns None). -/
structure Env where
  validate_source_uri : String → Bool
  is_file_path : String → Bool
  layer_from_source : String → String → Option Layer

/-- An environment is faithful when every constructed layer reports the
name and source it was constructed from, as the QGIS constructors do. -/
def Env.Faithful (env : Env) : Prop :=
  ∀ s n l, env.layer_from_source s n = some l → l.name = n ∧ l.source = s

/-- The request parameters the handler reads (request.parameters()).
none models an absent key. -/
structure Params where
  SERVICE : Option String
  PROJECT : Option String
  OVERWRITE : Option String
  REMOVEQML : Option String
  SOURCES : Option String
  FILES : Option String
  NAMES : Option String

/-- The observable outcome of executeRequest: response status and body,
the final filesystem, the files removed, the final in-memory project
instance, the project persisted by project.write() if any, and the layer
list passed to generate_legend if it was called. -/
structure ExecResult where
  status : Option Nat
  body : List String
  contentTypeSet : Bool
  fs : List String
  removed : List String
  proj : Project
  written : Option Project
  legends : Option (List Layer)
deriving DecidableEq, Repr

/-! ### QGIS operations used by the handler -/

/-- QgsProject.writeEntry on a Nat-keyed group: replace the entry when the
key is present, append it otherwise. -/
def writeEntryNat (m : List (Nat × Nat)) (k v : Nat) : List (Nat × Nat) :=
  if m.any (fun p => p.1 == k) then m.map (fun p => if p.1 == k then (k, v) else p)
  else m ++ [(k, v)]

/-- QgsProject.removeEntry on a Nat-keyed group. -/
def removeEntryNat (m : List (Nat × Nat)) (k : Nat) : List (Nat × Nat) :=
  m.filter (fun p => p.1 != k)

/-- Value stored for a key, if any. -/
def lookupEntry (m : List (Nat × Nat)) (k : Nat) : Option Nat :=
  (m.find? (fun p => p.1 == k)).map (fun p => p.2)

/-- QgsProject.mapLayersByName: the registered layers carrying a name. -/
def mapLayersByName (ls : List Layer) (n : String) : List Layer :=
  ls.filter (fun l => l.name == n)

/-- QgsProject.removeMapLayer by id. -/
def removeMapLayer (ls : List Layer) (i : Nat) : List Layer :=
  ls.filter (fun l => l.id != i)

/-- QgsMapLayerStyleManager.renameStyle: rename succeeds only when the old
name is present and the new one is not. -/
def renameStyleList (styles : List String) (old nw : String) : List String :=
  if styles.contains old && !styles.contains nw then
    styles.map (fun s => if s = old then nw else s)
  else styles

/-- Line 197-198: rename the unnamed style of a layer. -/
def renameStyle (l : Layer) (old nw : String) : Layer :=
  { l with styles := renameStyleList l.styles old nw }

/-! ### Parameter handling (lines 80-149) -/

/-- Python truthiness on an optional string: absent and empty are falsy. -/
def falsyGet (o : Option String) : String := o.getD ""

/-- Lines 87-103: a flag parameter is true exactly when it is present,
non-empty, and upper-cases to 1, YES or TRUE. -/
def parseFlag (o : Option String) : Bool :=
  match o with
  | none => false
  | some s => if s = "" then false else ["1", "YES", "TRUE"].contains (upperStr s)

/-- Line 81: project_path. -/
def projectPath (params : Params) : String := falsyGet params.PROJECT

/-- Lines 87-94. -/
def overwriteFlag (params : Params) : Bool := parseFlag params.OVERWRITE

/-- Lines 96-103. -/
def removeQmlFlag (params : Params) : Bool := parseFlag params.REMOVEQML

/-- Lines 105-107: whether the existing project file is removed up front. -/
def projRemoved (params : Params) (fs : List String) : Bool :=
  fs.contains (projectPath params) && overwriteFlag params

/-- The filesystem after the line 107 removal. -/
def fsAfterRemove (params : Params) (fs : List String) : List String :=
  if projRemoved params fs then fs.filter (fun p => p != projectPath params) else fs

/-- The files removed by line 107. -/
def removedAfter (params : Params) (fs : List String) : List String :=
  if projRemoved params fs then [projectPath params] else []

/-- Lines 110-115: SOURCES, falling back to the legacy FILES parameter. -/
def sourcesParam (params : Params) : String :=
  if falsyGet params.SOURCES = "" then falsyGet params.FILES else falsyGet params.SOURCES

/-- Line 123: sources = sources_parameters.split(semicolon). -/
def sourcesList (params : Params) : List String :=
  splitSemi (sourcesParam params)

/-- Line 139. -/
def namesParam (params : Params) : String := falsyGet params.NAMES

/-- Lines 140-145: NAMES is present and its field count differs from SOURCES. -/
def namesMismatch (params : Params) : Bool :=
  namesParam params != "" &&
    (splitSemi (namesParam params)).length != (sourcesList params).length

/-- Lines 140-149: the display names, split from NAMES when present and
non-empty, otherwise derived from the sources. -/
def namesList (params : Params) : List String :=
  if namesParam params = "" then (sourcesList params).map defaultName
  else splitSemi (namesParam params)

/-- Lines 124-137: first validation error over the sources, scanning in
order; checks run against the post-removal filesystem. -/
def validateSources (env : Env) (fs : List String) : List String → Option String
  | [] => none
  | s :: rest =>
    if !env.validate_source_uri s then some ("invalid parameter: " ++ s ++ ".\n")
    else if env.is_file_path s && !fs.contains s then
      some ("file not found : " ++ s ++ ".\n")
    else validateSources env fs rest

/-! ### The per-layer construction loop (lines 157-198) -/

/-- Accumulator of the loop over zip(names, sources): the constructed
layers (with the style rename of line 198 applied), the qml companions
found on disk, the vector and raster layer ids, and the body text written
by the invalid-type branch of lines 186-188 (which does not abort). -/
structure LoopAcc where
  qgis_layers : List Layer
  qml_files : List String
  vector_layers : List Nat
  raster_layers : List Nat
  extraBody : List String
deriving DecidableEq, Repr

/-- Lines 157-164: the empty accumulator. -/
def loopAccInit : LoopAcc :=
  { qgis_layers := [], qml_files := [], vector_layers := [], raster_layers := [],
    extraBody := [] }

/-- Lines 182-198: the non-aborting part of one loop iteration: classify
the layer id as raster or vector (the invalid-type branch writes to the
body and goes on), record the companion qml when it exists, and append
the layer with its unnamed style renamed.  The invalid-type message
abstracts the Python repr of the layer object. -/
def stepAcc (fs : List String) (acc : LoopAcc) (layer_source : String)
    (qgis_layer : Layer) : LoopAcc :=
  let acc1 :=
    match qgis_layer.kind with
    | .raster => { acc with raster_layers := acc.raster_layers ++ [qgis_layer.id] }
    | .vector => { acc with vector_layers := acc.vector_layers ++ [qgis_layer.id] }
    | .other => { acc with extraBody := acc.extraBody ++ ["Invalid type : " ++ qgis_layer.name] }
  let qml_file := qmlOf layer_source
  let acc2 :=
    if fs.contains qml_file then { acc1 with qml_files := acc1.qml_files ++ [qml_file] }
    else acc1
  { acc2 with qgis_layers := acc2.qgis_layers ++ [renameStyle qgis_layer "" "default"] }

/-- Lines 166-198.  An error carries the body written so far plus the
message of the aborting write (status 400 in both aborting branches). -/
def buildLayers (env : Env) (fs : List String) :
    List (String × String) → LoopAcc → Except (List String × String) LoopAcc
  | [], acc => .ok acc
  | (layer_name, layer_source) :: rest, acc =>
    match env.layer_from_source layer_source layer_name with
    | none => .error (acc.extraBody, "Invalid format : " ++ layer_source)
    | some qgis_layer =>
      if !qgis_layer.valid then
        .error (acc.extraBody, "Layer is not valid : " ++ layer_source)
      else
        buildLayers env fs rest (stepAcc fs acc layer_source qgis_layer)

/-! ### Reconciliation (lines 200-244) -/

/-- The mutable state of the update loop: the layer registry, the
precision entries (project and map_registry are the same singleton), and
the three bookkeeping lists of the loop. -/
structure MergeState where
  registry : List Layer
  wfsPrecision : List (Nat × Nat)
  project_qgis_layers : List Layer
  vector_layers : List Nat
  raster_layers : List Nat
deriving DecidableEq, Repr

/-- State at line 200, from the loaded project and the loop accumulator. -/
def initMergeState (proj : Project) (acc : LoopAcc) : MergeState :=
  { registry := proj.layers, wfsPrecision := proj.wfsPrecision,
    project_qgis_layers := [], vector_layers := acc.vector_layers,
    raster_layers := acc.raster_layers }

/-- Lines 211-244: one step of the update loop.  List.erase removes the
first occurrence, like Python list.remove. -/
def mergeStep (st : MergeState) (new_layer : Layer) : MergeState :=
  match mapLayersByName st.registry new_layer.name with
  | [] =>
    { st with registry := st.registry ++ [new_layer],
              project_qgis_layers := st.project_qgis_layers ++ [new_layer] }
  | current_layer :: _ =>
    let st1 := { st with project_qgis_layers := st.project_qgis_layers ++ [current_layer] }
    if current_layer.source = new_layer.source then
      match new_layer.kind with
      | .vector =>
        { st1 with vector_layers := st1.vector_layers.erase new_layer.id ++ [current_layer.id] }
      | .raster =>
        { st1 with raster_layers := st1.raster_layers.erase new_layer.id ++ [current_layer.id] }
      | .other => st1
    else
      let st2 :=
        match new_layer.kind with
        | .vector => { st1 with wfsPrecision := removeEntryNat st1.wfsPrecision current_layer.id }
        | _ => st1
      { st2 with registry := removeMapLayer st2.registry current_layer.id ++ [new_layer] }

/-- Lines 200-244: insert all layers when overwriting, otherwise fold the
update step over the incoming layers in input order. -/
def mergedState (params : Params) (proj0 : Project) (acc : LoopAcc) : MergeState :=
  if overwriteFlag params then
    { initMergeState proj0 acc with registry := proj0.layers ++ acc.qgis_layers }
  else acc.qgis_layers.foldl mergeStep (initMergeState proj0 acc)

/-! ### Entry rewrite and the full handler -/

/-- Lines 248-255: write a precision entry of 8 per vector id and replace
the WFSLayers list, but only when some vector id was collected; likewise
WCSLayers for raster ids. -/
def applyEntries (proj : Project) (vec ras : List Nat) : Project :=
  let p1 :=
    if vec ≠ [] then
      { proj with
          wfsPrecision := vec.foldl (fun m i => writeEntryNat m i 8) proj.wfsPrecision,
          wfsLayers := some vec }
    else proj
  if ras ≠ [] then { p1 with wcsLayers := some ras } else p1

/-- The project handed to project.write() at line 257. -/
def writtenProject (proj0 : Project) (st : MergeState) : Project :=
  applyEntries { proj0 with layers := st.registry, wfsPrecision := st.wfsPrecision }
    st.vector_layers st.raster_layers

/-- Line 154: the project state the handler works on, read from the file
when it still exists and OVERWRITE is off, the in-memory instance
otherwise. -/
def projLoaded (params : Params) (fs : List String) (inst stored : Project) : Project :=
  if (fsAfterRemove params fs).contains (projectPath params) && !overwriteFlag params then stored
  else inst

/-- Lines 246-273: the successful tail of the handler.  Line 246 collects
the registry layers for generate_legend (the Python spells the Python-2
dict.itervalues, see the C6 analysis); project.write() is modelled as
always succeeding, so the error branch of lines 260-262 is dead;
project.clear() empties the in-memory instance. -/
def successResult (_env : Env) (params : Params) (fs : List String) (inst stored : Project)
    (acc : LoopAcc) : ExecResult :=
  let pp := projectPath params
  let fs1 := fsAfterRemove params fs
  let proj0 := projLoaded params fs inst stored
  let st := mergedState params proj0 acc
  let w := writtenProject proj0 st
  let fs2 := if fs1.contains pp then fs1 else fs1 ++ [pp]
  let fs3 :=
    if removeQmlFlag params then fs2.filter (fun p => !acc.qml_files.contains p) else fs2
  { status := some 200,
    body := acc.extraBody ++ ["OK"],
    contentTypeSet := true,
    fs := fs3,
    removed := removedAfter params fs ++ (if removeQmlFlag params then acc.qml_files else []),
    proj := emptyProject,
    written := some w,
    legends := some st.registry }

/-- MapComposition.executeRequest (lines 64-273).  fs is the set of
existing files, inst the state of the QgsProject singleton before the
call, stored the project persisted at the project path (consulted only by
the read of line 155). -/
def executeRequest (env : Env) (params : Params) (fs : List String)
    (inst stored : Project) : ExecResult :=
  let base : ExecResult :=
    { status := none, body := [], contentTypeSet := true, fs := fs,
      removed := [], proj := inst, written := none, legends := none }
  if upperStr (falsyGet params.SERVICE) ≠ "MAPCOMPOSITION" then base
  else if projectPath params = "" then
    { base with status := some 400, body := ["PROJECT parameter is missing.\n"] }
  else
    let base1 := { base with fs := fsAfterRemove params fs, removed := removedAfter params fs }
    if sourcesParam params = "" then
      { base1 with status := some 400, body := ["SOURCES parameter is missing.\n"] }
    else
      match validateSources env (fsAfterRemove params fs) (sourcesList params) with
      | some msg => { base1 with status := some 400, body := [msg] }
      | none =>
        if namesMismatch params then
          { base1 with status := some 400,
                       body := ["Not same length between NAMES and SOURCES"] }
        else
          match buildLayers env (fsAfterRemove params fs)
              ((namesList params).zip (sourcesList params)) loopAccInit with
          | .error e =>
            { base1 with status := some 400, body := e.1 ++ [e.2],
                         proj := projLoaded params fs inst stored }
          | .ok acc => successResult env params fs inst stored acc

/-! ### Concrete sample data used by the witnesses and counterexamples -/

/-- A concrete environment: every source validates except the literal
string bad; file paths are the strings beginning with a slash; every
layer constructs, reporting its source and name, classified raster
exactly on the .asc extension, invalid only for one marker path. -/
def envA : Env :=
  { validate_source_uri := fun s => s != "bad",
    is_file_path := fun s => s.toList.head? == some '/',
    layer_from_source := fun s n =>
      some { id := 100 + s.length, name := n, source := s,
             kind := if (splitext s).2 = ".asc" then LayerKind.raster else LayerKind.vector,
             valid := s != "/data/broken.shp", styles := [""] } }

/-- A stored project holding one vector layer named alpha with an old
source, exposed through WFSLayers with a precision entry. -/
def storedA : Project :=
  { layers := [{ id := 99, name := "alpha", source := "/data/old.shp",
                 kind := LayerKind.vector, valid := true, styles := ["default"] }],
    wfsLayers := some [99], wcsLayers := none, wfsPrecision := [(99, 8)] }

/-- A plain update request: one vector source and one raster source,
derived names, no OVERWRITE, no REMOVEQML. -/
def paramsA : Params :=
  { SERVICE := some "MapComposition", PROJECT := some "/p/proj.qgs",
    OVERWRITE := none, REMOVEQML := none,
    SOURCES := some "/data/alpha.shp;/data/beta.asc", FILES := none, NAMES := none }

/-- Filesystem for the sample requests. -/
def fsA : List String :=
  ["/p/proj.qgs", "/data/alpha.shp", "/data/beta.asc", "/data/alpha.qml"]

/-- The same request with OVERWRITE and REMOVEQML set. -/
def paramsOw : Params :=
  { paramsA with OVERWRITE := some "yes", REMOVEQML := some "TRUE" }

/-- An overwrite request with an invalid source entry. -/
def paramsBad : Params :=
  { paramsA with OVERWRITE := some "1", SOURCES := some "/data/alpha.shp;bad" }

/-- A request whose only source is a raster. -/
def paramsRas : Params :=
  { paramsA with SOURCES := some "/data/beta.asc" }

/-- A request whose only source is a raster whose derived name alpha
collides with the stored vector layer of storedA. -/
def paramsRasRep : Params :=
  { paramsA with SOURCES := some "/data/alpha.asc" }

/-- Filesystem for paramsRasRep. -/
def fsB : List String := ["/p/proj.qgs", "/data/alpha.asc"]

/-- The loop accumulator the build loop produces for paramsRasRep. -/
def accRasRep : LoopAcc :=
  { qgis_layers :=
      [{ id := 115, name := "alpha", source := "/data/alpha.asc",
         kind := LayerKind.raster, valid := true, styles := ["default"] }],
    qml_files := [], vector_layers := [], raster_layers := [115], extraBody := [] }

/-- A request whose SERVICE parameter names another service. -/
def paramsWms : Params := { paramsA with SERVICE := some "WMS" }

/-- The loop accumulator the build loop produces for paramsA (and for
paramsOw, whose filesystem differs only by the removed project file). -/
def accA : LoopAcc :=
  { qgis_layers :=
      [{ id := 115, name := "alpha", source := "/data/alpha.shp",
         kind := LayerKind.vector, valid := true, styles := ["default"] },
       { id := 114, name := "beta", source := "/data/beta.asc",
         kind := LayerKind.raster, valid := true, styles := ["default"] }],
    qml_files := ["/data/alpha.qml"],
    vector_layers := [115], raster_layers := [114], extraBody := [] }

/-- The first layer accA keeps: the alpha vector layer, styled. -/
def layAlphaStyled : Layer :=
  { id := 115, name := "alpha", source := "/data/alpha.shp",
    kind := LayerKind.vector, valid := true, styles := ["default"] }

/-- The loop accumulator the build loop produces for paramsRas. -/
def accRas : LoopAcc :=
  { qgis_layers :=
      [{ id := 114, name := "beta", source := "/data/beta.asc",
         kind := LayerKind.raster, valid := true, styles := ["default"] }],
    qml_files := [], vector_layers := [], raster_layers := [114], extraBody := [] }

/-- A merge state carrying the stored project's registry. -/
def mergeStA : MergeState :=
  { registry := storedA.layers, wfsPrecision := storedA.wfsPrecision,
    project_qgis_layers := [], vector_layers := [50], raster_layers := [] }

/-- A fresh vector layer whose name matches nothing in storedA. -/
def layGamma : Layer :=
  { id := 50, name := "gamma", source := "/data/gamma.shp", kind := LayerKind.vector,
    valid := true, styles := ["default"] }

/-- A 400 rejection that left no trace: no project written, no legends,
in-memory project untouched, and a diagnostic in the body. -/
def rejected400 (r : ExecResult) (inst : Project) : Prop :=
  r.status = some 400 ∧ r.written = none ∧ r.legends = none ∧ r.proj = inst ∧ r.body ≠ []

/-! ### Helper lemmas about the handler's branches -/

theorem contains_filter_ne_self (fs : List String) (x : String) :
    (fs.filter (fun p => p != x)).contains x = false := by
  induction fs with
  | nil => rfl
  | cons a t ih =>
    by_cases h : a = x
    · simp only [List.filter_cons, h, bne_self_eq_false]
      exact ih
    · simp [List.filter_cons, h, List.contains_cons, ih, bne_iff_ne, Ne.symm h]

theorem executeRequest_wrong_service (env : Env) (params : Params) (fs : List String)
    (inst stored : Project)
    (hserv : upperStr (falsyGet params.SERVICE) ≠ "MAPCOMPOSITION") :
    executeRequest env params fs inst stored =
      { status := none, body := [], contentTypeSet := true, fs := fs,
        removed := [], proj := inst, written := none, legends := none } := by
  simp [executeRequest, hserv]

theorem executeRequest_project_missing (env : Env) (params : Params) (fs : List String)
    (inst stored : Project)
    (hserv : upperStr (falsyGet params.SERVICE) = "MAPCOMPOSITION")
    (hpp : projectPath params = "") :
    executeRequest env params fs inst stored =
      { status := some 400, body := ["PROJECT parameter is missing.\n"],
        contentTypeSet := true, fs := fs, removed := [], proj := inst,
        written := none, legends := none } := by
  simp [executeRequest, hserv, hpp]

theorem executeRequest_sources_missing (env : Env) (params : Params) (fs : List String)
    (inst stored : Project)
    (hserv : upperStr (falsyGet params.SERVICE) = "MAPCOMPOSITION")
    (hpp : projectPath params ≠ "")
    (hsp : sourcesParam params = "") :
    executeRequest env params fs inst stored =
      { status := some 400, body := ["SOURCES parameter is missing.\n"],
        contentTypeSet := true, fs := fsAfterRemove params fs,
        removed := removedAfter params fs, proj := inst,
        written := none, legends := none } := by
  simp [executeRequest, hserv, hpp, hsp]

theorem executeRequest_invalid_source (env : Env) (params : Params) (fs : List String)
    (inst stored : Project) (msg : String)
    (hserv : upperStr (falsyGet params.SERVICE) = "MAPCOMPOSITION")
    (hpp : projectPath params ≠ "")
    (hsp : sourcesParam params ≠ "")
    (hval : validateSources env (fsAfterRemove params fs) (sourcesList params) = some msg) :
    executeRequest env params fs inst stored =
      { status := some 400, body := [msg],
        contentTypeSet := true, fs := fsAfterRemove params fs,
        removed := removedAfter params fs, proj := inst,
        written := none, legends := none } := by
  simp [executeRequest, hserv, hpp, hsp, hval]

theorem executeRequest_names_mismatch (env : Env) (params : Params) (fs : List String)
    (inst stored : Project)
    (hserv : upperStr (falsyGet params.SERVICE) = "MAPCOMPOSITION")
    (hpp : projectPath params ≠ "")
    (hsp : sourcesParam params ≠ "")
    (hval : validateSources env (fsAfterRemove params fs) (sourcesList params) = none)
    (hnm : namesMismatch params = true) :
    executeRequest env params fs inst stored =
      { status := some 400, body := ["Not same length between NAMES and SOURCES"],
        contentTypeSet := true, fs := fsAfterRemove params fs,
        removed := removedAfter params fs, proj := inst,
        written := none, legends := none } := by
  simp [executeRequest, hserv, hpp, hsp, hval, hnm]

theorem executeRequest_build_error (env : Env) (params : Params) (fs : List String)
    (inst stored : Project) (e : List String × String)
    (hserv : upperStr (falsyGet params.SERVICE) = "MAPCOMPOSITION")
    (hpp : projectPath params ≠ "")
    (hsp : sourcesParam params ≠ "")
    (hval : validateSources env (fsAfterRemove params fs) (sourcesList params) = none)
    (hnm : namesMismatch params = false)
    (hbuild : buildLayers env (fsAfterRemove params fs)
        ((namesList params).zip (sourcesList params)) loopAccInit = .error e) :
    executeRequest env params fs inst stored =
      { status := some 400, body := e.1 ++ [e.2],
        contentTypeSet := true, fs := fsAfterRemove params fs,
        removed := removedAfter params fs, proj := projLoaded params fs inst stored,
        written := none, legends := none } := by
  simp [executeRequest, hserv, hpp, hsp, hval, hnm, hbuild]

theorem executeRequest_eq_success (env : Env) (params : Params) (fs : List String)
    (inst stored : Project) (acc : LoopAcc)
    (hserv : upperStr (falsyGet params.SERVICE) = "MAPCOMPOSITION")
    (hpp : projectPath params ≠ "")
    (hsp : sourcesParam params ≠ "")
    (hval : validateSources env (fsAfterRemove params fs) (sourcesList params) = none)
    (hnm : namesMismatch params = false)
    (hbuild : buildLayers env (fsAfterRemove params fs)
        ((namesList params).zip (sourcesList params)) loopAccInit = .ok acc) :
    executeRequest env params fs inst stored = successResult env params fs inst stored acc := by
  simp [executeRequest, hserv, hpp, hsp, hval, hnm, hbuild]

theorem validateSources_of_bad (env : Env) (fs : List String) (l : List String) (s : String)
    (hmem : s ∈ l)
    (hbad : env.validate_source_uri s = false ∨
      (env.is_file_path s = true ∧ fs.contains s = false)) :
    ∃ msg, validateSources env fs l = some msg := by
  induction l with
  | nil => cases hmem
  | cons a t ih =>
    by_cases hv : env.validate_source_uri a = true
    · by_cases hf : env.is_file_path a = true ∧ a ∉ fs
      · exact ⟨"file not found : " ++ a ++ ".\n", by simp [validateSources, hv, hf.1, hf.2]⟩
      · rcases List.mem_cons.mp hmem with rfl | hmem2
        · exfalso
          rcases hbad with hb | ⟨hfp, hc⟩
          · rw [hv] at hb; cases hb
          · refine hf ⟨hfp, ?_⟩
            intro hmem3
            simp [hmem3] at hc
        · obtain ⟨msg, hmsg⟩ := ih hmem2
          refine ⟨msg, ?_⟩
          simp [validateSources, hv, hmsg]
          intro hfp hnm
          exact absurd ⟨hfp, hnm⟩ hf
    · exact ⟨"invalid parameter: " ++ a ++ ".\n", by simp [validateSources, hv]⟩

theorem renameStyle_source (l : Layer) (old nw : String) :
    (renameStyle l old nw).source = l.source := rfl

theorem stepAcc_qgis (fs : List String) (acc : LoopAcc) (src : String) (L : Layer) :
    (stepAcc fs acc src L).qgis_layers =
      acc.qgis_layers ++ [renameStyle L "" "default"] := by
  cases hk : L.kind <;> by_cases hq : qmlOf src ∈ fs <;>
    simp [stepAcc, hk, hq]

theorem stepAcc_qml (fs : List String) (acc : LoopAcc) (src : String) (L : Layer) :
    (stepAcc fs acc src L).qml_files =
      acc.qml_files ++ (if qmlOf src ∈ fs then [qmlOf src] else []) := by
  cases hk : L.kind <;> by_cases hq : qmlOf src ∈ fs <;>
    simp [stepAcc, hk, hq]

theorem buildLayers_sources (env : Env) (fs : List String)
    (pairs : List (String × String)) (acc out : LoopAcc)
    (hF : env.Faithful)
    (hok : buildLayers env fs pairs acc = .ok out) :
    out.qgis_layers.map Layer.source =
      acc.qgis_layers.map Layer.source ++ pairs.map Prod.snd := by
  induction pairs generalizing acc with
  | nil =>
    simp only [buildLayers] at hok
    cases hok
    simp
  | cons p rest ih =>
    obtain ⟨nm, src⟩ := p
    simp only [buildLayers] at hok
    cases hl : env.layer_from_source src nm with
    | none => simp [hl] at hok
    | some L =>
      simp only [hl] at hok
      by_cases hvld : (!L.valid) = true
      · rw [if_pos hvld] at hok; cases hok
      · rw [if_neg hvld] at hok
        have := ih (stepAcc fs acc src L) hok
        rw [this, stepAcc_qgis]
        have hsrc : L.source = src := (hF src nm L hl).2
        simp [renameStyle_source, hsrc]

theorem buildLayers_qml (env : Env) (fs : List String)
    (pairs : List (String × String)) (acc out : LoopAcc)
    (hok : buildLayers env fs pairs acc = .ok out) :
    out.qml_files =
      acc.qml_files ++
        (pairs.map (fun pr => qmlOf pr.2)).filter (fun q => fs.contains q) := by
  induction pairs generalizing acc with
  | nil =>
    simp only [buildLayers] at hok
    cases hok
    simp
  | cons p rest ih =>
    obtain ⟨nm, src⟩ := p
    simp only [buildLayers] at hok
    cases hl : env.layer_from_source src nm with
    | none => simp [hl] at hok
    | some L =>
      simp only [hl] at hok
      by_cases hvld : (!L.valid) = true
      · rw [if_pos hvld] at hok; cases hok
      · rw [if_neg hvld] at hok
        have := ih (stepAcc fs acc src L) hok
        rw [this, stepAcc_qml]
        by_cases hq : qmlOf src ∈ fs <;>
          simp [List.filter_cons, hq]

theorem buildLayers_styled (env : Env) (fs : List String)
    (pairs : List (String × String)) (acc out : LoopAcc)
    (hok : buildLayers env fs pairs acc = .ok out) :
    ∀ l, l ∈ out.qgis_layers → l ∈ acc.qgis_layers ∨
      ∃ s n l0, env.layer_from_source s n = some l0 ∧ l = renameStyle l0 "" "default" := by
  induction pairs generalizing acc with
  | nil =>
    simp only [buildLayers] at hok
    cases hok
    exact fun l hl => Or.inl hl
  | cons p rest ih =>
    obtain ⟨nm, src⟩ := p
    simp only [buildLayers] at hok
    cases hl : env.layer_from_source src nm with
    | none => simp [hl] at hok
    | some L =>
      simp only [hl] at hok
      by_cases hvld : (!L.valid) = true
      · rw [if_pos hvld] at hok; cases hok
      · rw [if_neg hvld] at hok
        intro l hmem
        rcases ih (stepAcc fs acc src L) hok l hmem with hacc | hnew
        · rw [stepAcc_qgis] at hacc
          rcases List.mem_append.mp hacc with h1 | h2
          · exact Or.inl h1
          · rcases List.mem_singleton.mp h2 with rfl
            exact Or.inr ⟨src, nm, L, hl, rfl⟩
        · exact Or.inr hnew

theorem applyEntries_layers (proj : Project) (vec ras : List Nat) :
    (applyEntries proj vec ras).layers = proj.layers := by
  unfold applyEntries
  by_cases hv : vec ≠ [] <;> by_cases hr : ras ≠ [] <;> simp [hv, hr]

theorem namesList_length (params : Params) (hnm : namesMismatch params = false) :
    (namesList params).length = (sourcesList params).length := by
  unfold namesList
  by_cases h : namesParam params = ""
  · simp [h]
  · rw [if_neg h]
    simp [namesMismatch, h] at hnm
    exact hnm

theorem writtenProject_layers (proj0 : Project) (st : MergeState) :
    (writtenProject proj0 st).layers = st.registry := by
  unfold writtenProject
  rw [applyEntries_layers]

theorem envA_faithful : envA.Faithful := by
  intro s n l h
  simp only [envA] at h
  cases h
  exact ⟨rfl, rfl⟩

theorem find?_map_write (k v : Nat) (m : List (Nat × Nat)) :
    m.any (fun p => p.1 == k) = true →
      (m.map (fun p => if p.1 == k then (k, v) else p)).find? (fun p => p.1 == k) =
        some (k, v) := by
  induction m with
  | nil => intro h; cases h
  | cons a t ih =>
    intro h
    by_cases hk : a.1 = k
    · rw [List.map_cons, if_pos (by simp [hk]), List.find?_cons_of_pos _ (by simp)]
    · rw [List.map_cons, if_neg (by simp [hk]), List.find?_cons_of_neg _ (by simp [hk])]
      exact ih (by simpa [hk] using h)

theorem find?_map_write_other (k v i : Nat) (h : i ≠ k) (m : List (Nat × Nat)) :
    (m.map (fun p => if p.1 == k then (k, v) else p)).find? (fun p => p.1 == i) =
      m.find? (fun p => p.1 == i) := by
  induction m with
  | nil => rfl
  | cons a t ih =>
    by_cases hk : a.1 = k
    · rw [List.map_cons, if_pos (by simp [hk])]
      rw [List.find?_cons_of_neg _ (by simp [Ne.symm h])]
      rw [List.find?_cons_of_neg _ (by simp [hk, Ne.symm h])]
      exact ih
    · rw [List.map_cons, if_neg (by simp [hk])]
      by_cases hi : a.1 = i
      · rw [List.find?_cons_of_pos _ (by simp [hi]), List.find?_cons_of_pos _ (by simp [hi])]
      · rw [List.find?_cons_of_neg _ (by simp [hi]), List.find?_cons_of_neg _ (by simp [hi])]
        exact ih

theorem find?_append_eq (p : Nat × Nat → Bool) (l1 l2 : List (Nat × Nat)) :
    (l1 ++ l2).find? p = ((l1.find? p).orElse (fun _ => l2.find? p)) := by
  induction l1 with
  | nil => simp
  | cons a t ih =>
    by_cases hp : p a = true
    · rw [List.cons_append, List.find?_cons_of_pos _ hp, List.find?_cons_of_pos _ hp]
      rfl
    · rw [List.cons_append, List.find?_cons_of_neg _ (by simpa using hp),
        List.find?_cons_of_neg _ (by simpa using hp)]
      exact ih

theorem lookupEntry_write_self (m : List (Nat × Nat)) (k v : Nat) :
    lookupEntry (writeEntryNat m k v) k = some v := by
  unfold writeEntryNat
  by_cases hany : m.any (fun p => p.1 == k) = true
  · rw [if_pos hany]
    unfold lookupEntry
    rw [find?_map_write k v m hany]
    rfl
  · rw [if_neg hany]
    unfold lookupEntry
    have hnone : m.find? (fun p => p.1 == k) = none := by
      refine List.find?_eq_none.mpr ?_
      intro x hx hpx
      exact hany (List.any_eq_true.mpr ⟨x, hx, hpx⟩)
    rw [find?_append_eq, hnone]
    rw [List.find?_cons_of_pos _ (by simp)]
    rfl

theorem lookupEntry_write_other (m : List (Nat × Nat)) (k v i : Nat) (h : i ≠ k) :
    lookupEntry (writeEntryNat m k v) i = lookupEntry m i := by
  unfold writeEntryNat
  by_cases hany : m.any (fun p => p.1 == k) = true
  · rw [if_pos hany]
    unfold lookupEntry
    rw [find?_map_write_other k v i h m]
  · rw [if_neg hany]
    unfold lookupEntry
    rw [find?_append_eq]
    have hsingle : List.find? (fun p => p.1 == i) [(k, v)] = none := by
      rw [List.find?_cons_of_neg _ (by simp [Ne.symm h])]
      rfl
    rw [hsingle]
    cases hm : m.find? (fun p => p.1 == i) <;> rfl

theorem lookupEntry_fold_write_preserved (vec : List Nat) (i : Nat) :
    ∀ m, lookupEntry m i = some 8 →
      lookupEntry (vec.foldl (fun a j => writeEntryNat a j 8) m) i = some 8 := by
  induction vec with
  | nil => exact fun m h => h
  | cons j t ih =>
    intro m h
    rw [List.foldl_cons]
    apply ih
    by_cases hj : i = j
    · subst hj
      exact lookupEntry_write_self m i 8
    · rw [lookupEntry_write_other m j 8 i hj]
      exact h

theorem lookupEntry_fold_write (vec : List Nat) (i : Nat) :
    ∀ m, i ∈ vec →
      lookupEntry (vec.foldl (fun a j => writeEntryNat a j 8) m) i = some 8 := by
  induction vec with
  | nil => intro m h; cases h
  | cons j t ih =>
    intro m hmem
    rw [List.foldl_cons]
    by_cases hj : i = j
    · subst hj
      exact lookupEntry_fold_write_preserved t i _ (lookupEntry_write_self m i 8)
    · rcases List.mem_cons.mp hmem with h1 | h2
      · exact absurd h1 hj
      · exact ih _ h2

theorem lookupEntry_remove (m : List (Nat × Nat)) (k : Nat) :
    lookupEntry (removeEntryNat m k) k = none := by
  unfold lookupEntry removeEntryNat
  have : (m.filter (fun p => p.1 != k)).find? (fun p => p.1 == k) = none := by
    refine List.find?_eq_none.mpr ?_
    intro x hx hpx
    have h2 := (List.mem_filter.mp hx).2
    simp at h2 hpx
    exact h2 hpx
  rw [this]
  rfl

theorem renameStyleList_default (styles : List String)
    (h : "" ∈ styles ∨ "default" ∈ styles) :
    "default" ∈ renameStyleList styles "" "default" := by
  by_cases hc : "" ∈ styles
  · by_cases hd : "default" ∈ styles
    · unfold renameStyleList
      rw [if_neg (by simp [hd])]
      exact hd
    · unfold renameStyleList
      rw [if_pos (by simp [hc, hd])]
      exact List.mem_map.mpr ⟨"", hc, by simp⟩
  · have hd : "default" ∈ styles := h.resolve_left hc
    unfold renameStyleList
    rw [if_neg (by simp [hc])]
    exact hd

/-! ### Claim theorems -/

/-- C1: in a non-overwrite request the handler reconciles each incoming
layer by name, one step per incoming layer in input order: a layer whose
name is absent from the registry is appended; when the first registered
layer of that name has the same source string the registry is unchanged;
when its source differs, that registered layer is removed and the
incoming layer appended.  The non-overwrite merge of the handler is
exactly the left fold of this step over the incoming layers. -/
theorem C1_name_keyed_reconciliation (st : MergeState) (new_layer : Layer)
    (rest : List Layer) (params : Params) (proj0 : Project) (acc : LoopAcc) :
    (mapLayersByName st.registry new_layer.name = [] →
      (mergeStep st new_layer).registry = st.registry ++ [new_layer])
  ∧ (∀ cur tl, mapLayersByName st.registry new_layer.name = cur :: tl →
      (cur.source = new_layer.source → (mergeStep st new_layer).registry = st.registry)
    ∧ (cur.source ≠ new_layer.source →
        (mergeStep st new_layer).registry =
          removeMapLayer st.registry cur.id ++ [new_layer]))
  ∧ List.foldl mergeStep st (new_layer :: rest) =
      List.foldl mergeStep (mergeStep st new_layer) rest
  ∧ (overwriteFlag params = false →
      mergedState params proj0 acc =
        acc.qgis_layers.foldl mergeStep (initMergeState proj0 acc)) := by
  refine ⟨?_, ?_, rfl, fun hov => by simp [mergedState, hov]⟩
  · intro h
    simp [mergeStep, h]
  · intro cur tl h
    constructor
    · intro hs
      cases hk : new_layer.kind <;> simp [mergeStep, h, hs, hk]
    · intro hs
      cases hk : new_layer.kind <;> simp [mergeStep, h, hs, hk]

theorem C1_name_keyed_reconciliation_witness :
    (mergeStep mergeStA layGamma).registry = mergeStA.registry ++ [layGamma] :=
  (C1_name_keyed_reconciliation mergeStA layGamma [] paramsA storedA accA).1 (by decide)

/-- C4: with SERVICE equal to MAPCOMPOSITION, the handler answers 400
with a diagnostic, adds no layer, and writes neither project nor legends,
whenever PROJECT is missing or empty, both SOURCES and FILES are missing
or empty, some source fails URI validation, some file-path source names a
file absent from the (post-removal) filesystem, or NAMES is present with
a field count different from SOURCES. -/
theorem C4_validation_rejections (env : Env) (params : Params) (fs : List String)
    (inst stored : Project)
    (hserv : upperStr (falsyGet params.SERVICE) = "MAPCOMPOSITION") :
    (projectPath params = "" → rejected400 (executeRequest env params fs inst stored) inst)
  ∧ (sourcesParam params = "" → rejected400 (executeRequest env params fs inst stored) inst)
  ∧ (∀ s, s ∈ sourcesList params → env.validate_source_uri s = false →
      rejected400 (executeRequest env params fs inst stored) inst)
  ∧ (∀ s, s ∈ sourcesList params → env.is_file_path s = true →
      (fsAfterRemove params fs).contains s = false →
      rejected400 (executeRequest env params fs inst stored) inst)
  ∧ (namesMismatch params = true →
      rejected400 (executeRequest env params fs inst stored) inst) := by
  have hmissing : projectPath params = "" →
      rejected400 (executeRequest env params fs inst stored) inst := by
    intro hpp
    rw [executeRequest_project_missing env params fs inst stored hserv hpp]
    exact ⟨rfl, rfl, rfl, rfl, by simp⟩
  have hvalcase : ∀ s, s ∈ sourcesList params →
      (env.validate_source_uri s = false ∨
        (env.is_file_path s = true ∧ (fsAfterRemove params fs).contains s = false)) →
      rejected400 (executeRequest env params fs inst stored) inst := by
    intro s hmem hbad
    by_cases hpp : projectPath params = ""
    · exact hmissing hpp
    · by_cases hsp : sourcesParam params = ""
      · rw [executeRequest_sources_missing env params fs inst stored hserv hpp hsp]
        exact ⟨rfl, rfl, rfl, rfl, by simp⟩
      · obtain ⟨msg, hmsg⟩ := validateSources_of_bad env (fsAfterRemove params fs)
          (sourcesList params) s hmem hbad
        rw [executeRequest_invalid_source env params fs inst stored msg hserv hpp hsp hmsg]
        exact ⟨rfl, rfl, rfl, rfl, by simp⟩
  refine ⟨hmissing, ?_, ?_, ?_, ?_⟩
  · intro hsp
    by_cases hpp : projectPath params = ""
    · exact hmissing hpp
    · rw [executeRequest_sources_missing env params fs inst stored hserv hpp hsp]
      exact ⟨rfl, rfl, rfl, rfl, by simp⟩
  · exact fun s hmem hbad => hvalcase s hmem (Or.inl hbad)
  · exact fun s hmem hfp hc => hvalcase s hmem (Or.inr ⟨hfp, hc⟩)
  · intro hnm
    by_cases hpp : projectPath params = ""
    · exact hmissing hpp
    · by_cases hsp : sourcesParam params = ""
      · rw [executeRequest_sources_missing env params fs inst stored hserv hpp hsp]
        exact ⟨rfl, rfl, rfl, rfl, by simp⟩
      · cases hval : validateSources env (fsAfterRemove params fs) (sourcesList params) with
        | some msg =>
          rw [executeRequest_invalid_source env params fs inst stored msg hserv hpp hsp hval]
          exact ⟨rfl, rfl, rfl, rfl, by simp⟩
        | none =>
          rw [executeRequest_names_mismatch env params fs inst stored hserv hpp hsp hval hnm]
          exact ⟨rfl, rfl, rfl, rfl, by simp⟩

theorem C4_validation_rejections_witness :
    rejected400 (executeRequest envA paramsBad fsA emptyProject storedA) emptyProject :=
  (C4_validation_rejections envA paramsBad fsA emptyProject storedA (by decide)).2.2.1
    "bad" (by decide) (by decide)

/-- C5: when OVERWRITE holds and the project file exists, the file is
removed before the sources are validated, so a request rejected with 400
for an invalid source still ends with the previously existing project
file gone from the filesystem and nothing written in its place. -/
theorem C5_removal_precedes_validation (env : Env) (params : Params) (fs : List String)
    (inst stored : Project) (msg : String)
    (hserv : upperStr (falsyGet params.SERVICE) = "MAPCOMPOSITION")
    (hpp : projectPath params ≠ "")
    (hov : overwriteFlag params = true)
    (hex : fs.contains (projectPath params) = true)
    (hsp : sourcesParam params ≠ "")
    (hval : validateSources env (fsAfterRemove params fs) (sourcesList params) = some msg) :
    (executeRequest env params fs inst stored).status = some 400
  ∧ (executeRequest env params fs inst stored).written = none
  ∧ (executeRequest env params fs inst stored).removed = [projectPath params]
  ∧ (executeRequest env params fs inst stored).fs.contains (projectPath params) = false := by
  rw [executeRequest_invalid_source env params fs inst stored msg hserv hpp hsp hval]
  have hex2 : projectPath params ∈ fs := by simpa using hex
  have hrem : projRemoved params fs = true := by simp [projRemoved, hex2, hov]
  refine ⟨rfl, rfl, ?_, ?_⟩
  · simp [removedAfter, hrem]
  · simp [fsAfterRemove, hrem, contains_filter_ne_self]

theorem C5_removal_precedes_validation_witness :
    (executeRequest envA paramsBad fsA emptyProject storedA).status = some 400
  ∧ (executeRequest envA paramsBad fsA emptyProject storedA).written = none
  ∧ (executeRequest envA paramsBad fsA emptyProject storedA).removed = [projectPath paramsBad]
  ∧ (executeRequest envA paramsBad fsA emptyProject storedA).fs.contains
      (projectPath paramsBad) = false :=
  C5_removal_precedes_validation envA paramsBad fsA emptyProject storedA
    "invalid parameter: bad.\n" (by decide) (by decide) (by decide) (by decide)
    (by decide) (by decide)

/-- C10: when the upper-cased SERVICE parameter is not MAPCOMPOSITION the
handler only sets the Content-type header: no status code, empty body,
filesystem untouched, nothing removed, in-memory project unchanged,
nothing written, no legends generated. -/
theorem C10_service_guard_frame (env : Env) (params : Params) (fs : List String)
    (inst stored : Project)
    (hserv : upperStr (falsyGet params.SERVICE) ≠ "MAPCOMPOSITION") :
    executeRequest env params fs inst stored =
      { status := none, body := [], contentTypeSet := true, fs := fs,
        removed := [], proj := inst, written := none, legends := none } :=
  executeRequest_wrong_service env params fs inst stored hserv

theorem C10_service_guard_frame_witness :
    executeRequest envA paramsWms fsA emptyProject storedA =
      { status := none, body := [], contentTypeSet := true, fs := fsA,
        removed := [], proj := emptyProject, written := none, legends := none } :=
  C10_service_guard_frame envA paramsWms fsA emptyProject storedA (by decide)

/-- C3: a flag parameter is true exactly when its upper-cased value is 1,
YES or TRUE and false when absent; when OVERWRITE is true and the project
file exists, the file is removed and, the instance being empty, the
written project is rebuilt from scratch with exactly one layer per
SOURCES entry, in input order; when OVERWRITE is false and the file
exists, the stored project is read and the written project is that
project updated by the reconciliation fold. -/
theorem C3_overwrite_rebuild (env : Env) (params : Params) (fs : List String)
    (inst stored : Project) (acc : LoopAcc)
    (hserv : upperStr (falsyGet params.SERVICE) = "MAPCOMPOSITION")
    (hpp : projectPath params ≠ "")
    (hsp : sourcesParam params ≠ "")
    (hval : validateSources env (fsAfterRemove params fs) (sourcesList params) = none)
    (hnm : namesMismatch params = false)
    (hbuild : buildLayers env (fsAfterRemove params fs)
        ((namesList params).zip (sourcesList params)) loopAccInit = .ok acc) :
    (∀ s, parseFlag (some s) = true ↔ upperStr s ∈ ["1", "YES", "TRUE"])
  ∧ parseFlag none = false
  ∧ (overwriteFlag params = true → fs.contains (projectPath params) = true →
      projectPath params ∈ (executeRequest env params fs inst stored).removed)
  ∧ (overwriteFlag params = true → inst = emptyProject → env.Faithful →
      ∃ w, (executeRequest env params fs inst stored).written = some w
        ∧ w.layers.map Layer.source = sourcesList params)
  ∧ (overwriteFlag params = false → fs.contains (projectPath params) = true →
      (executeRequest env params fs inst stored).written =
        some (writtenProject stored (mergedState params stored acc))) := by
  have hmaster := executeRequest_eq_success env params fs inst stored acc
    hserv hpp hsp hval hnm hbuild
  refine ⟨?_, rfl, ?_, ?_, ?_⟩
  · intro s
    by_cases h : s = ""
    · subst h
      simp [parseFlag, upperStr]
    · simp [parseFlag, h]
  · intro hov hex
    rw [hmaster]
    have hex2 : projectPath params ∈ fs := by simpa using hex
    have hrem : projRemoved params fs = true := by simp [projRemoved, hov, hex2]
    simp [successResult, removedAfter, hrem]
  · intro hov hinst hF
    rw [hmaster]
    refine ⟨_, rfl, ?_⟩
    have hproj : projLoaded params fs inst stored = emptyProject := by
      simp [projLoaded, hov, hinst]
    rw [hproj, writtenProject_layers]
    have hreg : (mergedState params emptyProject acc).registry = acc.qgis_layers := by
      simp [mergedState, hov, initMergeState, emptyProject]
    rw [hreg]
    have hsrcs := buildLayers_sources env (fsAfterRemove params fs)
      ((namesList params).zip (sourcesList params)) loopAccInit acc hF hbuild
    rw [hsrcs]
    have hlen := namesList_length params hnm
    simp [loopAccInit, List.map_snd_zip _ _ (le_of_eq hlen.symm)]
  · intro hov hex
    rw [hmaster]
    have hfs1 : fsAfterRemove params fs = fs := by
      simp [fsAfterRemove, projRemoved, hov]
    have hproj : projLoaded params fs inst stored = stored := by
      have hex2 : projectPath params ∈ fs := by simpa using hex
      simp [projLoaded, hfs1, hov, hex2]
    simp [successResult, hproj]

theorem C3_overwrite_rebuild_witness :
    ∃ w, (executeRequest envA paramsOw fsA emptyProject storedA).written = some w
      ∧ w.layers.map Layer.source = sourcesList paramsOw :=
  (C3_overwrite_rebuild envA paramsOw fsA emptyProject storedA accA
      rfl (by decide) (by decide) rfl rfl rfl).2.2.2.1 rfl rfl envA_faithful

/-- C6: in this model of the intended behaviour, every successful request
writes the project and then hands exactly the layers of the written
project, the registered layer collection, to generate_legend.  In the
Python 3 runtime the handler never reaches this point: line 246 calls
dict.itervalues, a Python 2 method removed in Python 3, so an
AttributeError is raised before the entry rewrite, project.write and
generate_legend. -/
theorem C6_legends_for_written_layers (env : Env) (params : Params) (fs : List String)
    (inst stored : Project) (acc : LoopAcc)
    (hserv : upperStr (falsyGet params.SERVICE) = "MAPCOMPOSITION")
    (hpp : projectPath params ≠ "")
    (hsp : sourcesParam params ≠ "")
    (hval : validateSources env (fsAfterRemove params fs) (sourcesList params) = none)
    (hnm : namesMismatch params = false)
    (hbuild : buildLayers env (fsAfterRemove params fs)
        ((namesList params).zip (sourcesList params)) loopAccInit = .ok acc) :
    ∃ w, (executeRequest env params fs inst stored).written = some w
      ∧ (executeRequest env params fs inst stored).legends = some w.layers
      ∧ (executeRequest env params fs inst stored).status = some 200 := by
  rw [executeRequest_eq_success env params fs inst stored acc hserv hpp hsp hval hnm hbuild]
  refine ⟨_, rfl, ?_, rfl⟩
  simp [successResult, writtenProject_layers]

theorem C6_legends_for_written_layers_witness :
    ∃ w, (executeRequest envA paramsA fsA emptyProject storedA).written = some w
      ∧ (executeRequest envA paramsA fsA emptyProject storedA).legends = some w.layers
      ∧ (executeRequest envA paramsA fsA emptyProject storedA).status = some 200 :=
  C6_legends_for_written_layers envA paramsA fsA emptyProject storedA accA
    rfl (by decide) (by decide) rfl rfl rfl

/-- C7: NAMES is optional: when absent or empty the display names are the
source base names with the extension removed, in source order; when
present its fields are used, the handler insisting on equal field counts,
and the i-th name is paired with the i-th source. -/
theorem C7_names_optional (params : Params) (k : Nat)
    (h1 : k < (namesList params).length) (h2 : k < (sourcesList params).length) :
    (namesParam params = "" →
      namesList params = (sourcesList params).map (fun s => (splitext (basename s)).1))
  ∧ (namesParam params ≠ "" → namesList params = splitSemi (namesParam params))
  ∧ (namesMismatch params = false →
      (namesList params).length = (sourcesList params).length)
  ∧ (∀ hz : k < ((namesList params).zip (sourcesList params)).length,
      ((namesList params).zip (sourcesList params)).get ⟨k, hz⟩ =
        ((namesList params).get ⟨k, h1⟩, (sourcesList params).get ⟨k, h2⟩)) := by
  refine ⟨?_, ?_, namesList_length params, ?_⟩
  · intro h
    simp [namesList, h, defaultName]
  · intro h
    simp [namesList, h]
  · intro hz
    simp [List.get_eq_getElem, List.getElem_zip]

theorem C7_names_optional_witness :
    namesList paramsA = (sourcesList paramsA).map (fun s => (splitext (basename s)).1) :=
  (C7_names_optional paramsA 0 (by decide) (by decide)).1 rfl

/-- C8: the qml companions are deleted exactly when REMOVEQML holds:
then, the removed files are the project file taken away up front plus
every path obtained by swapping a source's extension for .qml that
existed at processing time, and when REMOVEQML is false or absent nothing
beyond the up-front project removal is deleted and the final filesystem
is the post-write one, untouched. -/
theorem C8_removeqml (env : Env) (params : Params) (fs : List String)
    (inst stored : Project) (acc : LoopAcc)
    (hserv : upperStr (falsyGet params.SERVICE) = "MAPCOMPOSITION")
    (hpp : projectPath params ≠ "")
    (hsp : sourcesParam params ≠ "")
    (hval : validateSources env (fsAfterRemove params fs) (sourcesList params) = none)
    (hnm : namesMismatch params = false)
    (hbuild : buildLayers env (fsAfterRemove params fs)
        ((namesList params).zip (sourcesList params)) loopAccInit = .ok acc) :
    (removeQmlFlag params = true →
      (executeRequest env params fs inst stored).removed =
        removedAfter params fs ++
          ((sourcesList params).map qmlOf).filter
            (fun q => (fsAfterRemove params fs).contains q))
  ∧ (removeQmlFlag params = false →
      (executeRequest env params fs inst stored).removed = removedAfter params fs)
  ∧ (removeQmlFlag params = false →
      (executeRequest env params fs inst stored).fs =
        (if (fsAfterRemove params fs).contains (projectPath params) then
          fsAfterRemove params fs
        else fsAfterRemove params fs ++ [projectPath params])) := by
  have hmaster := executeRequest_eq_success env params fs inst stored acc
    hserv hpp hsp hval hnm hbuild
  have hqml : acc.qml_files =
      ((sourcesList params).map qmlOf).filter
        (fun q => (fsAfterRemove params fs).contains q) := by
    have hq := buildLayers_qml env (fsAfterRemove params fs)
      ((namesList params).zip (sourcesList params)) loopAccInit acc hbuild
    have hlen := namesList_length params hnm
    have hmapsnd : ((namesList params).zip (sourcesList params)).map
        (fun pr => qmlOf pr.2) = (sourcesList params).map qmlOf := by
      rw [show (fun pr : String × String => qmlOf pr.2) = qmlOf ∘ Prod.snd from rfl]
      rw [← List.map_map, List.map_snd_zip _ _ (le_of_eq hlen.symm)]
    rw [hq, hmapsnd]
    simp [loopAccInit]
  refine ⟨?_, ?_, ?_⟩
  · intro hrq
    rw [hmaster]
    simp [successResult, hrq, hqml]
  · intro hrq
    rw [hmaster]
    simp [successResult, hrq]
  · intro hrq
    rw [hmaster]
    simp [successResult, hrq]

theorem C8_removeqml_witness :
    (executeRequest envA paramsOw fsA emptyProject storedA).removed =
      removedAfter paramsOw fsA ++
        ((sourcesList paramsOw).map qmlOf).filter
          (fun q => (fsAfterRemove paramsOw fsA).contains q) :=
  (C8_removeqml envA paramsOw fsA emptyProject storedA accA
      rfl (by decide) (by decide) rfl rfl rfl).1 rfl

/-- C9: every layer kept by a successful build loop is some constructed
layer with its unnamed style renamed to default, and whenever a
constructed layer carries the unnamed style (or already a default one)
the layer put into the project carries a style named default. -/
theorem C9_default_style (env : Env) (fs : List String)
    (pairs : List (String × String)) (out : LoopAcc)
    (hok : buildLayers env fs pairs loopAccInit = .ok out)
    (hstyle : ∀ s n l, env.layer_from_source s n = some l →
        ("" ∈ l.styles ∨ "default" ∈ l.styles)) :
    (∀ l, l ∈ out.qgis_layers →
      ∃ s n l0, env.layer_from_source s n = some l0 ∧ l = renameStyle l0 "" "default")
  ∧ (∀ l, l ∈ out.qgis_layers → "default" ∈ l.styles) := by
  have hmem : ∀ l, l ∈ out.qgis_layers →
      ∃ s n l0, env.layer_from_source s n = some l0 ∧ l = renameStyle l0 "" "default" := by
    intro l hl
    rcases buildLayers_styled env fs pairs loopAccInit out hok l hl with h0 | hnew
    · simp [loopAccInit] at h0
    · exact hnew
  refine ⟨hmem, ?_⟩
  intro l hl
  obtain ⟨s, n, l0, hl0, rfl⟩ := hmem l hl
  exact renameStyleList_default l0.styles (hstyle s n l0 hl0)

theorem C9_default_style_witness :
    "default" ∈ layAlphaStyled.styles :=
  (C9_default_style envA (fsAfterRemove paramsA fsA)
      ((namesList paramsA).zip (sourcesList paramsA)) accA rfl
      (fun s n l h => by
        simp only [envA] at h
        cases h
        exact Or.inl (by simp))).2 layAlphaStyled (by decide)

/-- C2 counterexample: one successful non-overwrite request breaking
both sentences of the claim.  The stored project holds one vector layer
(id 99, name alpha) exposed via WFSLayers with a precision entry of 8;
the only incoming layer is a raster, also named alpha, with a different
source.  The run succeeds, the raster replaces the vector (id 99 is no
longer registered), the build loop collected no vector id, yet the
written project still exposes WFSLayers as the stale [99] — not the
empty per-request vector list — and the replaced vector's
WFSLayersPrecision entry (99, 8) is still present, because line 238
removes it only when the incoming layer is a vector. -/
theorem C2_exposure_counterexample :
    storedA.layers.map (fun l => (l.id, l.kind)) = [(99, LayerKind.vector)]
  ∧ storedA.wfsLayers = some [99]
  ∧ (executeRequest envA paramsRasRep fsB emptyProject storedA).status = some 200
  ∧ (executeRequest envA paramsRasRep fsB emptyProject storedA).written =
      some { layers :=
               [{ id := 115, name := "alpha", source := "/data/alpha.asc",
                  kind := LayerKind.raster, valid := true, styles := ["default"] }],
             wfsLayers := some [99], wcsLayers := some [115],
             wfsPrecision := [(99, 8)] }
  ∧ buildLayers envA (fsAfterRemove paramsRasRep fsB)
      ((namesList paramsRasRep).zip (sourcesList paramsRasRep)) loopAccInit = .ok accRasRep
  ∧ accRasRep.vector_layers = [] :=
  ⟨rfl, rfl, rfl, rfl, rfl, rfl⟩

/-- C2 amended: after a successful request, when at least one vector id
was kept or added the written project's WFSLayers is exactly that id
list and each listed id has a WFSLayersPrecision entry of 8; when no
vector id was collected, WFSLayers and the precision entries are left as
the merge produced them (so a stale list from the loaded project can
survive, even naming ids no longer registered); WCSLayers likewise is
exactly the collected raster ids when any, untouched otherwise; and a
replacement step removes the replaced layer's precision entry exactly
when the incoming layer is a vector: an incoming vector erases it, an
incoming non-vector leaves the precision entries untouched. -/
theorem C2_exposure_lists_amended (proj0 : Project) (st : MergeState) :
    (st.vector_layers ≠ [] →
        (writtenProject proj0 st).wfsLayers = some st.vector_layers
      ∧ ∀ i, i ∈ st.vector_layers →
          lookupEntry (writtenProject proj0 st).wfsPrecision i = some 8)
  ∧ (st.vector_layers = [] →
        (writtenProject proj0 st).wfsLayers = proj0.wfsLayers
      ∧ (writtenProject proj0 st).wfsPrecision = st.wfsPrecision)
  ∧ (st.raster_layers ≠ [] → (writtenProject proj0 st).wcsLayers = some st.raster_layers)
  ∧ (st.raster_layers = [] → (writtenProject proj0 st).wcsLayers = proj0.wcsLayers)
  ∧ (∀ st2 nl cur tl, mapLayersByName st2.registry nl.name = cur :: tl →
      cur.source ≠ nl.source →
      ((nl.kind = LayerKind.vector →
          lookupEntry (mergeStep st2 nl).wfsPrecision cur.id = none)
      ∧ (nl.kind ≠ LayerKind.vector →
          (mergeStep st2 nl).wfsPrecision = st2.wfsPrecision))) := by
  refine ⟨?_, ?_, ?_, ?_, ?_⟩
  · intro hv
    constructor
    · unfold writtenProject applyEntries
      by_cases hr : st.raster_layers ≠ [] <;> simp [hv, hr]
    · intro i hi
      unfold writtenProject applyEntries
      by_cases hr : st.raster_layers ≠ [] <;>
        simp only [hv, hr, if_pos, if_neg, ite_true, ite_false, ne_eq,
          not_true_eq_false, not_false_eq_true, ite_not] <;>
        simp [lookupEntry_fold_write st.vector_layers i _ hi]
  · intro hv
    unfold writtenProject applyEntries
    by_cases hr : st.raster_layers ≠ [] <;> simp [hv, hr]
  · intro hr
    unfold writtenProject applyEntries
    by_cases hv : st.vector_layers ≠ [] <;> simp [hv, hr]
  · intro hr
    unfold writtenProject applyEntries
    by_cases hv : st.vector_layers ≠ [] <;> simp [hv, hr]
  · intro st2 nl cur tl hmap hsrc
    constructor
    · intro hkind
      simp only [mergeStep, hmap, hkind]
      rw [if_neg hsrc]
      simp [hkind, lookupEntry_remove]
    · intro hkind
      cases hk : nl.kind with
      | vector => exact absurd hk hkind
      | raster =>
        simp only [mergeStep, hmap, hk]
        rw [if_neg hsrc]
      | other =>
        simp only [mergeStep, hmap, hk]
        rw [if_neg hsrc]

theorem C2_exposure_lists_amended_witness :
    (writtenProject storedA (mergedState paramsRas storedA accRas)).wfsLayers =
      storedA.wfsLayers :=
  ((C2_exposure_lists_amended storedA (mergedState paramsRas storedA accRas)).2.1 rfl).1

end OtfProject
